import Mathlib

/-!
Shallow embedding of the `daily_ai4s_paper` pipeline (fetch → filter →
analyze → synthesize) and proofs of the frozen claims about it.

The Python sources embedded here are:
  * `src/data_models.py` — `PaperCandidate`, `AnalyzedPaper`;
  * `src/cache.py` — `load_processed_ids`, `save_processed_ids`;
  * `src/filter.py` — `RelevanceFilter.is_relevant`, `filter_papers`;
  * `src/analysis.py` — `_download_and_parse_pdf`, `_extract_resource_links`,
    `analyze_paper`;
  * `src/fetcher.py` — `_fetch_from_arxiv`, `_fetch_from_rxiv`,
    `_fetch_from_chemrxiv`;
  * `src/graph.py` — the four graph nodes over `GraphState`.
External effects (HTTP, LLM calls, the file system) are modelled as oracles
passed to the embedded functions, and every embedded operation additionally
returns the trace of side effects it performed.
-/

/-- `src/data_models.py`: `PaperCandidate`. -/
structure PaperCandidate where
  id : String
  url : String
  pdf_url : String
  title : String
  abstract : String
  authors : List String
  source : String
deriving DecidableEq, Repr

/-- `src/data_models.py`: `AnalyzedPaper`.  The Python `Dict[str, str]`
fields are modelled as association lists in insertion order. -/
structure AnalyzedPaper where
  metadata : PaperCandidate
  keywords : List String
  analysis_qa : List (String × String)
  resource_links : List (String × String)
  summary : String
deriving DecidableEq, Repr

/-- JSON values, as produced by Python's `json.load`. -/
inductive Json where
  | jnull
  | jbool (b : Bool)
  | jnum (n : Int)
  | jstr (s : String)
  | jarr (xs : List Json)
  | jobj (fs : List (String × Json))

/-- The possible states of the cache file `processed_papers_cache.json`:
absent, present but unreadable (an OS read error or a `json.JSONDecodeError`),
or present and holding a parsed JSON document. -/
inductive CacheFile where
  | missing
  | unreadable
  | stored (j : Json)

/-- A Python exception escaping the embedded code, by class name. -/
structure PyErr where
  clsName : String
deriving DecidableEq, Repr

/-- Python: `value` is unhashable (a `list` or `dict`) and so can be neither a
`set` element nor the argument of a membership test against a `set`. -/
def Json.unhashable : Json → Bool
  | .jarr _ => true
  | .jobj _ => true
  | _ => false

/-- Python `==` on hashable (scalar) JSON values.  The functions below only
ever compare values drawn from or tested against a Python `set`, and
`pySet` raises `TypeError` before any unhashable value can enter a set, so
this equality is only ever applied to the scalar constructors; on the two
container constructors it is constantly `false`, which no reachable call
observes. -/
def pyEq : Json → Json → Bool
  | .jnull, .jnull => true
  | .jbool a, .jbool b => a == b
  | .jnum a, .jnum b => a == b
  | .jstr a, .jstr b => a == b
  | _, _ => false

/-- Auxiliary recursion for `pyDedup`: drop every element that `pyEq`-matches
one already seen, keeping first occurrences. -/
def pyDedupGo (seen : List Json) : List Json → List Json
  | [] => []
  | x :: xs =>
      if seen.any (pyEq x) then pyDedupGo seen xs
      else x :: pyDedupGo (x :: seen) xs

/-- Canonical list form of the Python `set` built from the elements of `l`:
first occurrences, in source order.  (A Python `set` is unordered; every
statement below about sets is order-insensitive, so any canonical order
serves.) -/
def pyDedup (l : List Json) : List Json :=
  pyDedupGo [] l

/-- Python `set(v)` for a JSON value `v`: iterating a list yields its
elements (raising `TypeError` on an unhashable element), iterating a string
yields its one-character substrings, iterating a dict yields its keys, and
`None`/`bool`/numbers are not iterable (`TypeError`). -/
def pySet : Json → Except PyErr (List Json)
  | .jarr xs =>
      if xs.any Json.unhashable then .error ⟨"TypeError"⟩
      else .ok (pyDedup xs)
  | .jstr s => .ok (pyDedup (s.toList.map fun c => Json.jstr c.toString))
  | .jobj fs => .ok (pyDedup (fs.map fun kv => Json.jstr kv.1))
  | _ => .error ⟨"TypeError"⟩

/-- Python `data.get(key, dflt)`: succeeds only when `data` is a dict;
on any other JSON value the attribute lookup `.get` raises
`AttributeError`. -/
def pyDictGet (j : Json) (key : String) (dflt : Json) : Except PyErr Json :=
  match j with
  | .jobj fs => .ok ((fs.lookup key).getD dflt)
  | _ => .error ⟨"AttributeError"⟩

/-- `src/cache.py`: `load_processed_ids`.  A missing file yields the empty
set; an unreadable file (`IOError`) or one that fails JSON parsing
(`json.JSONDecodeError`) is caught and yields the empty set; but for a file
that parses to JSON, the uncaught exceptions of `data.get(...)` (when the
document is not an object) and of `set(...)` (when the value is not
iterable or has unhashable elements) propagate. -/
def load_processed_ids : CacheFile → Except PyErr (List Json)
  | .missing => .ok []
  | .unreadable => .ok []
  | .stored j => do
      let v ← pyDictGet j "processed_ids" (Json.jarr [])
      pySet v

/-- Python `existing.union(new)` on sets in canonical list form: the
elements of `existing` followed by the elements of `new` not already
present. -/
def pySetUnion (xs ys : List Json) : List Json :=
  xs ++ ys.filter (fun y => !(xs.any (pyEq y)))

/-- The canonical list form of the Python `set` of a list of strings
(e.g. a set comprehension over paper ids). -/
def strSet (ids : List String) : List Json :=
  pyDedup (ids.map Json.jstr)

/-- `src/cache.py`: `save_processed_ids`.  Loads the existing ids (letting
any exception of `load_processed_ids` propagate), unions in `new_ids`, and
writes the result back as `{"processed_ids": [...]}`.  `writeOk = false`
models the caught `IOError` branch: the error is logged and the file is
left unchanged. -/
def save_processed_ids (new_ids : List String) (writeOk : Bool)
    (f : CacheFile) : Except PyErr CacheFile := do
  let existing ← load_processed_ids f
  let updated := pySetUnion existing (strSet new_ids)
  pure (if writeOk then .stored (.jobj [("processed_ids", .jarr updated)]) else f)

/-- A side effect performed by the pipeline: an LLM relevance call for a
candidate, an LLM analysis call for a candidate, an HTTP fetch of a
document, a cache-file read, a successful cache-file write, or a
successful report-file write. -/
inductive Effect where
  | llmRelevance (id : String)
  | llmAnalysis (id : String)
  | httpGet (url : String)
  | cacheLoad
  | cacheSave (ids : List String)
  | fileWrite (name : String)
deriving DecidableEq, Repr

/-- `src/filter.py`: `RelevanceResponse`, the structured LLM output of the
relevance filter. -/
structure RelevanceResponse where
  is_relevant : Bool
  reason : String
deriving DecidableEq, Repr

/-- The relevance LLM capability: for a candidate's title and abstract,
either a structured response or a failure (timeout, malformed structured
output, backend error). -/
def RelevanceOracle : Type :=
  PaperCandidate → Except String RelevanceResponse

/-- `src/filter.py`: `RelevanceFilter.is_relevant`.  The LLM call is made
unconditionally; any exception from it is caught and yields `false`. -/
def is_relevant (relO : RelevanceOracle) (paper : PaperCandidate) :
    Bool × List Effect :=
  match relO paper with
  | .ok resp => (resp.is_relevant, [.llmRelevance paper.id])
  | .error _ => (false, [.llmRelevance paper.id])

/-- `src/filter.py`: `RelevanceFilter.filter_papers`.  One `is_relevant`
task per paper (`asyncio.gather` keeps results in input order); the output
is the zip of papers with results, filtered on the boolean, projected back
to the papers. -/
def filter_papers (relO : RelevanceOracle) (papers : List PaperCandidate) :
    List PaperCandidate × List Effect :=
  let results := papers.map fun p => (is_relevant relO p).1
  (((papers.zip results).filter fun pr => pr.2).map fun pr => pr.1,
   (papers.map fun p => (is_relevant relO p).2).flatten)

/-- Python's whitespace class `\s` (ASCII fragment): space, tab, newline,
carriage return, vertical tab, form feed. -/
def isPySpace (c : Char) : Bool :=
  c == ' ' || c == '\t' || c == '\n' || c == '\r' ||
  c == Char.ofNat 11 || c == Char.ofNat 12

/-- `re.sub(r'\s+', ' ', text)`: collapse every maximal whitespace run to a
single space. -/
def collapseRuns : List Char → List Char
  | [] => []
  | [c] => if isPySpace c then [' '] else [c]
  | c1 :: c2 :: rest =>
      if isPySpace c1 && isPySpace c2 then collapseRuns (c2 :: rest)
      else (if isPySpace c1 then ' ' else c1) :: collapseRuns (c2 :: rest)

/-- Python `str.strip()`: drop whitespace from both ends. -/
def pyStripChars (l : List Char) : List Char :=
  ((l.dropWhile isPySpace).reverse.dropWhile isPySpace).reverse

/-- `src/analysis.py`, inside `_download_and_parse_pdf`:
`re.sub(r'\s+', ' ', text).strip()`. -/
def collapseWs (s : String) : String :=
  (pyStripChars (collapseRuns s.toList)).asString

/-- Python `\w` or `-` (ASCII fragment of the character class `[\w\-]`). -/
def isWordDash (c : Char) : Bool :=
  c.isAlphanum || c == '_' || c == '-'

/-- Consume the literal `lit` from the front of `l`, or fail. -/
def dropLit (lit : String) (l : List Char) : Option (List Char) :=
  if lit.toList.isPrefixOf l then some (l.drop lit.toList.length) else none

/-- The regex fragment `https?://`: literal `http`, a greedy optional `s`
(with backtracking), then literal `://`. -/
def matchScheme (l : List Char) : Option (List Char) :=
  match dropLit "http" l with
  | none => none
  | some r =>
      match r with
      | 's' :: r2 =>
          match dropLit "://" r2 with
          | some r3 => some r3
          | none => dropLit "://" r
      | _ => dropLit "://" r

/-- The regex fragment `(?:www\.)?<host>`: a greedy optional `www.` (with
backtracking), then the literal host. -/
def matchHost (host : String) (l : List Char) : Option (List Char) :=
  match dropLit "www." l with
  | some r =>
      match dropLit host r with
      | some r2 => some r2
      | none => dropLit host l
  | none => dropLit host l

/-- The regex fragment `[\w\-]+`: a non-empty greedy run of word chars.
Since `/`, `.` etc. are not in the class, the greedy run needs no
backtracking. -/
def wordRun (l : List Char) : Option (List Char) :=
  let sp := l.span isWordDash
  if sp.1.isEmpty then none else some sp.2

/-- Matcher for `https?://(?:www\.)?github\.com/[\w\-]+/[\w\-]+` anchored at
the front of `l`; returns the unconsumed remainder. -/
def githubRest (l : List Char) : Option (List Char) := do
  let r1 ← matchScheme l
  let r2 ← matchHost "github.com/" r1
  let r3 ← wordRun r2
  let r4 ← dropLit "/" r3
  wordRun r4

/-- Matcher for `https?://(?:www\.)?huggingface\.co/[\w\-]+` anchored at the
front of `l`; returns the unconsumed remainder. -/
def hfRest (l : List Char) : Option (List Char) := do
  let r1 ← matchScheme l
  let r2 ← matchHost "huggingface.co/" r1
  wordRun r2

/-- Anchored match at the front of `l`, returning the matched text and the
remainder. -/
def matchFront (restF : List Char → Option (List Char)) (l : List Char) :
    Option (List Char × List Char) :=
  (restF l).map fun rest => (l.take (l.length - rest.length), rest)

/-- Fuelled scan for `re.findall`: leftmost, non-overlapping matches in
source order.  One unit of fuel per character suffices because every
pattern we use consumes at least one character per match. -/
def findAllGo (restF : List Char → Option (List Char)) :
    Nat → List Char → List (List Char)
  | 0, _ => []
  | _, [] => []
  | fuel + 1, c :: cs =>
      match matchFront restF (c :: cs) with
      | some (m, rest) => m :: findAllGo restF fuel rest
      | none => findAllGo restF fuel cs

/-- `re.findall(pattern, text)` for the anchored matcher `restF` (the
patterns used have no capture groups, so each hit is the whole match). -/
def findAll (restF : List Char → Option (List Char)) (l : List Char) :
    List (List Char) :=
  findAllGo restF l.length l

/-- Python assignment `d[k] = v` on a dict that already holds key `k`:
the value is replaced in place, insertion order unchanged. -/
def pyDictSetStr (d : List (String × String)) (k v : String) :
    List (String × String) :=
  d.map fun kv => if kv.1 = k then (k, v) else kv

/-- `src/analysis.py`: `PaperAnalysisAgent._extract_resource_links`.  A dict
with the three fixed keys (empty values), then the first `findall` hit, if
any, is written for `github` and for `huggingface`; nothing is ever
written for `project_page`. -/
def extract_resource_links (text : String) : List (String × String) :=
  let links := [("github", ""), ("huggingface", ""), ("project_page", "")]
  let github_matches := findAll githubRest text.toList
  let huggingface_matches := findAll hfRest text.toList
  let links1 :=
    match github_matches with
    | [] => links
    | m :: _ => pyDictSetStr links "github" m.asString
  match huggingface_matches with
  | [] => links1
  | m :: _ => pyDictSetStr links1 "huggingface" m.asString

/-- Outcome of `_download_and_parse_pdf`'s interaction with the outside
world: `clientErr` models `httpx.AsyncClient()` itself raising (the only
statement outside the `try`, so the exception escapes); `failed` models a
caught download/HTTP/parse failure (the function returns `""`); `parsed`
carries the raw extracted text before whitespace collapsing. -/
inductive PdfFetch where
  | clientErr (e : String)
  | failed
  | parsed (raw : String)
deriving DecidableEq, Repr

/-- The document-fetch capability, keyed by `pdf_url`. -/
def PdfOracle : Type := String → PdfFetch

/-- `src/analysis.py`: `QAResponse`. -/
structure QAResponse where
  question : String
  answer : String
deriving DecidableEq, Repr

/-- `src/analysis.py`: `AnalysisResult`, the structured LLM output of the
deep analysis. -/
structure AnalysisResult where
  analysis_qa : List QAResponse
  keywords : List String
  summary : String
deriving DecidableEq, Repr

/-- The analysis LLM capability, keyed by the (possibly truncated) paper
text: a structured result or a failure. -/
def AnalysisOracle : Type := String → Except String AnalysisResult

/-- `src/analysis.py`: `PaperAnalysisAgent._download_and_parse_pdf`:
fetches the document, extracts its text, and collapses whitespace; caught
failures yield `""`; only a failure of the client construction escapes. -/
def download_and_parse_pdf (pdfO : PdfOracle) (url : String) :
    Except String String × List Effect :=
  match pdfO url with
  | .clientErr e => (.error e, [])
  | .failed => (.ok "", [.httpGet url])
  | .parsed raw => (.ok (collapseWs raw), [.httpGet url])

/-- Python dict insertion `d[k] = v` built up by a comprehension: replace
the value in place when the key exists, else append. -/
def pyDictInsert (d : List (String × String)) (k v : String) :
    List (String × String) :=
  if d.any fun kv => kv.1 == k then
    d.map fun kv => if kv.1 == k then (k, v) else kv
  else d ++ [(k, v)]

/-- `{item.question: item.answer for item in analysis_result.analysis_qa}`. -/
def qaDict (items : List QAResponse) : List (String × String) :=
  items.foldl (fun d i => pyDictInsert d i.question i.answer) []

/-- `src/analysis.py`: `PaperAnalysisAgent.analyze_paper`.  Download and
parse (an escaping exception propagates to the caller); return `None` on
empty text; extract resource links; truncate to 30000 characters; invoke
the LLM, returning `None` on a caught failure, else assemble the
`AnalyzedPaper` with `metadata := paper`. -/
def analyze_paper (pdfO : PdfOracle) (llmO : AnalysisOracle)
    (paper : PaperCandidate) :
    Except String (Option AnalyzedPaper) × List Effect :=
  match download_and_parse_pdf pdfO paper.pdf_url with
  | (.error e, effs) => (.error e, effs)
  | (.ok paper_text, effs) =>
      if paper_text = "" then (.ok none, effs)
      else
        let resource_links := extract_resource_links paper_text
        let paper_text1 :=
          if paper_text.length > 30000 then paper_text.take 30000
          else paper_text
        match llmO paper_text1 with
        | .error _ => (.ok none, effs ++ [.llmAnalysis paper.id])
        | .ok r =>
            (.ok (some { metadata := paper,
                         keywords := r.keywords,
                         analysis_qa := qaDict r.analysis_qa,
                         resource_links := resource_links,
                         summary := r.summary }),
             effs ++ [.llmAnalysis paper.id])

/-- Python `str.split(sep)` on character lists, for a one-character
separator: splitting the empty string yields `[""]`, and every separator
occurrence opens a new group. -/
def pySplitChars (sep : Char) : List Char → List (List Char)
  | [] => [[]]
  | c :: cs =>
      if c = sep then [] :: pySplitChars sep cs
      else
        match pySplitChars sep cs with
        | [] => [[c]]
        | g :: gs => (c :: g) :: gs

/-- Python `str.split(sep)` for a one-character separator. -/
def pySplit (sep : Char) (s : String) : List String :=
  (pySplitChars sep s.toList).map List.asString

/-- One `link` object of an arXiv API result (`link.title` may be absent). -/
structure ArxivLink where
  href : String
  linkTitle : Option String
deriving DecidableEq, Repr

/-- One result of the `arxiv` library search.  `published` is the
publication instant as a UTC timestamp in seconds. -/
structure ArxivResult where
  entry_id : String
  published : Int
  pdf_url : Option String
  links : List ArxivLink
  title : String
  summary : String
  authors : List String
deriving DecidableEq, Repr

/-- `src/fetcher.py`, loop body of `search_arxiv` inside
`_fetch_from_arxiv`: keep a result only if `published > now - 24h`
(strict); resolve the PDF link (Python `or` falls through on `None` and on
the empty string); drop the result when no non-empty PDF link exists
(`if not pdf_url: continue`); `id` is the last `/`-separated component of
`entry_id`. -/
def arxiv_candidate (now : Int) (r : ArxivResult) : Option PaperCandidate :=
  if r.published > now - 86400 then
    let fallback := (r.links.find? fun l => l.linkTitle == some "pdf").map
      fun l => l.href
    let pdf_url :=
      match r.pdf_url with
      | some u => if u = "" then fallback else some u
      | none => fallback
    match pdf_url with
    | none => none
    | some u =>
        if u = "" then none
        else
          some { id := ((pySplit '/' r.entry_id).getLast?).getD "",
                 url := r.entry_id,
                 pdf_url := u,
                 title := r.title,
                 abstract := r.summary,
                 authors := r.authors,
                 source := "arXiv" }
  else none

/-- `src/fetcher.py`: `_fetch_from_arxiv`.  Any exception of the search is
caught and yields `[]`; otherwise the results are filtered by
`arxiv_candidate` in order. -/
def fetch_from_arxiv (now : Int) (o : Except String (List ArxivResult)) :
    List PaperCandidate :=
  match o with
  | .error _ => []
  | .ok rs => rs.filterMap (arxiv_candidate now)

/-- One entry of a bioRxiv/medRxiv `collection` author list: a dict holding
an `author` key, a bare string, or anything else (skipped by the code). -/
inductive RxivAuthor where
  | adict (name : String)
  | astr (s : String)
  | other
deriving DecidableEq, Repr

/-- One entry of the bioRxiv/medRxiv API `collection`.  `published` is the
item's publication instant as a UTC timestamp in seconds; the API reports
it, but `_fetch_from_rxiv` never reads it. -/
structure RxivItem where
  doi : Option String
  version : Option String
  title : Option String
  abstract : Option String
  authors : List RxivAuthor
  published : Int
deriving DecidableEq, Repr

/-- The parsed body of a bioRxiv/medRxiv API response. -/
structure RxivData where
  collection : List RxivItem
deriving DecidableEq, Repr

/-- Outcome of the bioRxiv/medRxiv HTTP exchange: `netError` is a caught
`httpx.RequestError` (the function returns `[]`); `raised` is any other
exception (e.g. `raise_for_status` or JSON decoding — not caught here, it
escapes to `fetch_papers`); `ok` carries the parsed body. -/
inductive RxivFetch where
  | netError
  | raised (e : String)
  | ok (data : RxivData)

/-- Python `str.capitalize()`: first character upper-cased, the rest
lower-cased. -/
def pyCapitalize (s : String) : String :=
  match s.toList with
  | [] => ""
  | c :: cs => (c.toUpper :: cs.map Char.toLower).asString

/-- `src/fetcher.py`, loop body of `_fetch_from_rxiv`: skip items without a
(truthy) `doi`; build the page and PDF URLs from the DOI and `version`
(an absent version renders as the string `None`); join the author names
and split on `;`.  No publication-time check is performed. -/
def rxiv_candidate (server : String) (item : RxivItem) :
    Option PaperCandidate :=
  match item.doi with
  | none => none
  | some d =>
      if d = "" then none
      else
        let paper_url := "https://www.biorxiv.org/content/" ++ d
        let pdf_url := paper_url ++ "v" ++
          (match item.version with | some v => v | none => "None") ++
          ".full.pdf"
        let names := item.authors.filterMap fun a =>
          match a with
          | .adict n => some n
          | .astr s => some s
          | .other => none
        some { id := d,
               url := paper_url,
               pdf_url := pdf_url,
               title := item.title.getD "",
               abstract := item.abstract.getD "",
               authors := pySplit ';' (String.join names),
               source := pyCapitalize server }

/-- `src/fetcher.py`: `_fetch_from_rxiv`. -/
def fetch_from_rxiv (server : String) (o : RxivFetch) :
    Except String (List PaperCandidate) :=
  match o with
  | .netError => .ok []
  | .raised e => .error e
  | .ok data => .ok (data.collection.filterMap (rxiv_candidate server))

/-- One author object of a ChemRxiv API item. -/
structure ChemAuthor where
  firstName : Option String
  lastName : Option String
deriving DecidableEq, Repr

/-- One ChemRxiv API item (already unwrapped from a possible nested `item`
key).  `itemId`/`title` are `none` when the key is absent (`item['id']` or
`item['title']` would raise `KeyError`, caught and turned into `None`);
`abstract` is `none` when absent (`item.get('abstract')` returns `None`,
and the `PaperCandidate` construction then raises a validation error,
caught and turned into `None`).  `published` is the item's publication
instant as a UTC timestamp in seconds; the API reports it, but the code
never reads it. -/
structure ChemItem where
  itemId : Option String
  title : Option String
  abstract : Option String
  pdf_url : Option String
  authors : List ChemAuthor
  published : Int
deriving DecidableEq, Repr

/-- `src/fetcher.py`: `_scrape_and_create_chemrxiv_candidate`: drop the
item when it has no (truthy) PDF URL, or when `id`/`title` are missing
(`KeyError`) or `abstract` is `None` (validation error) — every failure is
caught and yields `None`.  No publication-time check is performed. -/
def chem_candidate (item : ChemItem) : Option PaperCandidate :=
  match item.pdf_url with
  | none => none
  | some pdf =>
      if pdf = "" then none
      else
        match item.itemId, item.title, item.abstract with
        | some iid, some t, some ab =>
            some { id := iid,
                   url := "https://chemrxiv.org/engage/chemrxiv/article-details/"
                     ++ iid,
                   pdf_url := pdf,
                   title := t,
                   abstract := ab,
                   authors := item.authors.map fun a =>
                     (pyStripChars ((a.firstName.getD "") ++ " " ++
                       (a.lastName.getD "")).toList).asString,
                   source := "chemRxiv" }
        | _, _, _ => none

/-- `src/fetcher.py`: `_fetch_from_chemrxiv`.  The paginated accumulation
of `itemHits` is modelled by the final item list; an HTTP or other
exception of the page loop is caught and yields `[]`. -/
def fetch_from_chemrxiv (o : Except String (List ChemItem)) :
    List PaperCandidate :=
  match o with
  | .error _ => []
  | .ok items => items.filterMap chem_candidate

/-- `src/graph.py`: `GraphState`.  `report_filename` is the extra key the
synthesize node adds to the state dict (`none` models its absence). -/
structure GraphState where
  paper_candidates : List PaperCandidate
  relevant_papers : List PaperCandidate
  analyzed_papers : List AnalyzedPaper
  markdown_report : String
  report_filename : Option String
  error : Option String
deriving DecidableEq, Repr

/-- Python truthiness of `state.get("error")` for a `str | None` value:
`None` and `""` are falsy. -/
def pyTruthyStr : Option String → Bool
  | none => false
  | some s => !(s == "")

/-- `src/graph.py`: `filter_papers_node`.  Passthrough on a truthy error;
otherwise relevance-filter the candidates, load the cache (an exception
there is caught by the node's handler and sets the error marker), and if
the cache set is non-empty drop every relevant paper whose id is in it. -/
def filter_papers_node (relO : RelevanceOracle) (cacheF : CacheFile)
    (state : GraphState) : GraphState × List Effect :=
  if pyTruthyStr state.error then (state, [])
  else
    let fp := filter_papers relO state.paper_candidates
    match load_processed_ids cacheF with
    | .error _ =>
        ({ state with error := some "Failed to filter papers for relevance." },
         fp.2 ++ [.cacheLoad])
    | .ok processed_ids =>
        let papers_to_analyze :=
          if !processed_ids.isEmpty then
            fp.1.filter fun p => !(processed_ids.any (pyEq (Json.jstr p.id)))
          else fp.1
        ({ state with relevant_papers := papers_to_analyze },
         fp.2 ++ [.cacheLoad])

/-- `src/graph.py`, inside `analyze_papers_node`: one `analyze_paper` task
per relevant paper (`asyncio.gather(..., return_exceptions=True)`), keeping
only the results that are `AnalyzedPaper` instances — escaped exceptions
and `None` results are discarded (and logged). -/
def analyze_all (pdfO : PdfOracle) (llmO : AnalysisOracle)
    (papers : List PaperCandidate) : List AnalyzedPaper × List Effect :=
  let results := papers.map (analyze_paper pdfO llmO)
  (results.filterMap fun r =>
      match r.1 with
      | .ok (some ap) => some ap
      | _ => none,
   (results.map fun r => r.2).flatten)

/-- `src/graph.py`: `analyze_papers_node`.  Passthrough on a truthy error
or an empty `relevant_papers` list; otherwise analyze all relevant papers,
and if the set of successfully analyzed ids is non-empty, save it to the
cache (`save_processed_ids` raising is caught by the node's handler and
sets the error marker; a caught write failure, `writeOk = false`, is only
logged). -/
def analyze_papers_node (pdfO : PdfOracle) (llmO : AnalysisOracle)
    (writeOk : Bool) (cacheF : CacheFile) (state : GraphState) :
    GraphState × List Effect :=
  if pyTruthyStr state.error || state.relevant_papers.isEmpty then (state, [])
  else
    let aa := analyze_all pdfO llmO state.relevant_papers
    let successfully_analyzed_ids := (aa.1.map fun ap => ap.metadata.id).dedup
    if !successfully_analyzed_ids.isEmpty then
      match save_processed_ids successfully_analyzed_ids writeOk cacheF with
      | .error _ =>
          ({ state with error := some "Failed during paper analysis." },
           aa.2 ++ [.cacheLoad])
      | .ok _ =>
          ({ state with analyzed_papers := aa.1 },
           aa.2 ++ [.cacheLoad] ++
             (if writeOk then [.cacheSave successfully_analyzed_ids] else []))
    else ({ state with analyzed_papers := aa.1 }, aa.2)

/-- `src/graph.py`: `synthesize_report_node`, parameterized by the
synthesizer's rendering function and by the outcome of the report write
(`writeOk = false` models `save_report_async` raising, which the node's
handler catches, setting the error marker).  `today` is the current date,
already formatted as `%Y-%m-%d`. -/
def synthesize_report_node (synth : List AnalyzedPaper → String)
    (writeOk : Bool) (today : String) (state : GraphState) :
    GraphState × List Effect :=
  if pyTruthyStr state.error then (state, [])
  else
    let report_content := synth state.analyzed_papers
    let report_filename := "AI4Science_Report_" ++ today ++ ".md"
    if writeOk then
      ({ state with markdown_report := report_content,
                    report_filename := some report_filename },
       [.fileWrite report_filename])
    else
      ({ state with error := some "Failed to synthesize and save the report." },
       [])

/-- Modelled from the spec: `src/synthesizer.py` (class
`MarkdownSynthesizer`) is imported by `src/graph.py` but absent from the
sources; the renderer below is reconstructed from spec §4.5 and from the
string assertions of `src/tests/test_synthesizer.py`.  The question/answer
lines of one paper's collapsible block. -/
def qaLines (qa : List (String × String)) : List String :=
  (qa.map fun p => ["**Q:** " ++ p.1, "**A:** " ++ p.2]).flatten

/-- Modelled from the spec (§4.5, missing `src/synthesizer.py`): the
rendered links of the resources line — only the non-empty ones, with their
display labels. -/
def resourceEntries (links : List (String × String)) : List String :=
  [("github", "GitHub"), ("huggingface", "Hugging Face"),
   ("project_page", "Project Page")].filterMap fun kl =>
    match links.lookup kl.1 with
    | some v => if v = "" then none else some ("[" ++ kl.2 ++ "](" ++ v ++ ")")
    | none => none

/-- Modelled from the spec (§4.5, missing `src/synthesizer.py`): the lines
of the numbered section for one analyzed paper — sub-heading, authors,
source/PDF line, a resources line omitted entirely when all links are
empty, keywords, summary, and the collapsible question/answer block. -/
def paperSection (idx : Nat) (p : AnalyzedPaper) : List String :=
  ["## " ++ (toString idx ++ ". " ++ p.metadata.title),
   "**Authors:** *" ++ (String.intercalate ", " p.metadata.authors ++ "*"),
   "**Source:** [" ++ (p.metadata.source ++ "](" ++ p.metadata.url ++
     ") | **PDF:** [Link](" ++ p.metadata.pdf_url ++ ")")] ++
  (let res := resourceEntries p.resource_links
   if res.isEmpty then []
   else ["**Resources:** " ++ String.intercalate " | " res]) ++
  ["**Keywords:** `" ++ (String.intercalate ", " p.keywords ++ "`"),
   "### Summary",
   p.summary,
   "<details>",
   "<summary>Detailed Analysis</summary>"] ++
  qaLines p.analysis_qa ++
  ["</details>"]

/-- The fixed empty-state message asserted by
`tests/test_synthesizer.py::test_synthesize_empty_list`. -/
def noPapersMessage : String := "No relevant papers found today."

/-- Modelled from the spec (§4.5, missing `src/synthesizer.py`): the
title/date header of the report. -/
def reportHeader (today : String) : List String :=
  ["# AI4Science Daily Paper Report", "**Date:** " ++ today]

/-- Modelled from the spec (§4.5, missing `src/synthesizer.py`): the lines
of the rendered report — the fixed empty-state document for an empty input,
else the header followed by one numbered section per paper in input
order. -/
def synthesizeLines (today : String) (papers : List AnalyzedPaper) :
    List String :=
  if papers.isEmpty then reportHeader today ++ [noPapersMessage]
  else reportHeader today ++
    (papers.enum.map fun ip => paperSection (ip.1 + 1) ip.2).flatten

/-- Join report lines into the document text. -/
def joinLines : List String → String
  | [] => ""
  | [l] => l
  | l :: l2 :: ls => l ++ "\n" ++ joinLines (l2 :: ls)

/-- Modelled from the spec (§4.5, missing `src/synthesizer.py`):
`MarkdownSynthesizer.synthesize`. -/
def synthesize (today : String) (papers : List AnalyzedPaper) : String :=
  joinLines (synthesizeLines today papers)

/-- A line of the document that opens a numbered paper section: its first
three characters are `## ` (a `###` sub-heading does not qualify). -/
def isSectionHeaderLine (l : String) : Bool :=
  l.toList.take 3 == ['#', '#', ' ']

/-! ## Helper lemmas -/

/-- Zip a list with its own map, filter on the boolean component, project:
this is exactly `List.filter`. -/
theorem zip_map_filter_eq_filter (f : PaperCandidate → Bool) :
    ∀ l : List PaperCandidate,
      (((l.zip (l.map f)).filter fun pr => pr.2).map fun pr => pr.1) =
        l.filter f
  | [] => rfl
  | p :: ps => by
      by_cases h : f p <;>
        simp [List.zip_cons_cons, List.filter_cons, h,
          zip_map_filter_eq_filter f ps]

/-- A successful `analyze_paper` result embeds the input candidate as its
`metadata`. -/
theorem analyze_paper_metadata (pdfO : PdfOracle) (llmO : AnalysisOracle)
    (paper : PaperCandidate) (ap : AnalyzedPaper) (effs : List Effect)
    (h : analyze_paper pdfO llmO paper = (.ok (some ap), effs)) :
    ap.metadata = paper := by
  unfold analyze_paper download_and_parse_pdf at h
  rcases hpdf : pdfO paper.pdf_url with e | _ | raw <;> rw [hpdf] at h
  · simp at h
  · simp at h
  · by_cases hempty : collapseWs raw = ""
    · simp [hempty] at h
    · rcases hllm : llmO (if (collapseWs raw).length > 30000 then
          (collapseWs raw).take 30000 else collapseWs raw) with e2 | r <;>
        simp [hempty, hllm] at h
      rw [← h.1]

/-! ## Claim theorems -/

/-- Claim C1: for every pipeline state whose error marker is set (truthy,
i.e. a non-`None`, non-empty string, exactly the check
`if state.get("error"):` performs), each of the three nodes after the
first — `filter_papers_node`, `analyze_papers_node`,
`synthesize_report_node` — returns the state unchanged and performs no
side effect (empty effect trace: no cache read or write, no LLM call, no
HTTP fetch, no file write), for every environment. -/
theorem error_short_circuits_downstream_nodes
    (relO : RelevanceOracle) (cacheF : CacheFile) (pdfO : PdfOracle)
    (llmO : AnalysisOracle) (wCache wReport : Bool)
    (synth : List AnalyzedPaper → String) (today : String)
    (state : GraphState) (h : pyTruthyStr state.error = true) :
    filter_papers_node relO cacheF state = (state, []) ∧
    analyze_papers_node pdfO llmO wCache cacheF state = (state, []) ∧
    synthesize_report_node synth wReport today state = (state, []) := by
  refine ⟨?_, ?_, ?_⟩ <;>
    simp [filter_papers_node, analyze_papers_node, synthesize_report_node, h]

/-- Witness for C1 at a concrete errored state and concrete
environments. -/
theorem error_short_circuits_downstream_nodes_witness :
    filter_papers_node (fun _ => .error "down") .missing
        ⟨[], [], [], "", none, some "Failed to fetch papers."⟩ =
      (⟨[], [], [], "", none, some "Failed to fetch papers."⟩, []) ∧
    analyze_papers_node (fun _ => .failed) (fun _ => .error "down") true
        .missing ⟨[], [], [], "", none, some "Failed to fetch papers."⟩ =
      (⟨[], [], [], "", none, some "Failed to fetch papers."⟩, []) ∧
    synthesize_report_node (fun _ => "") true "2026-10-12"
        ⟨[], [], [], "", none, some "Failed to fetch papers."⟩ =
      (⟨[], [], [], "", none, some "Failed to fetch papers."⟩, []) :=
  error_short_circuits_downstream_nodes (fun _ => .error "down") .missing
    (fun _ => .failed) (fun _ => .error "down") true true (fun _ => "")
    "2026-10-12" ⟨[], [], [], "", none, some "Failed to fetch papers."⟩
    (by decide)

/-- Claim C9: for every state with a falsy error marker and an empty
`relevant_papers` list, `analyze_papers_node` returns the state unchanged
(in particular `analyzed_papers` is untouched) and performs no side effect:
no analysis is launched, the cache is neither read nor written. -/
theorem analyze_node_passthrough_on_empty_relevant
    (pdfO : PdfOracle) (llmO : AnalysisOracle) (wOk : Bool)
    (cacheF : CacheFile) (state : GraphState)
    (herr : pyTruthyStr state.error = false)
    (hrel : state.relevant_papers = []) :
    analyze_papers_node pdfO llmO wOk cacheF state = (state, []) := by
  simp [analyze_papers_node, herr, hrel]

/-- Witness for C9 at a concrete error-free state with one fetched
candidate and no relevant papers. -/
theorem analyze_node_passthrough_on_empty_relevant_witness :
    analyze_papers_node (fun _ => .failed) (fun _ => .error "down") true
        .missing
        ⟨[⟨"2401.1v1", "u", "p", "t", "a", [], "arXiv"⟩], [], [], "", none,
          none⟩ =
      (⟨[⟨"2401.1v1", "u", "p", "t", "a", [], "arXiv"⟩], [], [], "", none,
          none⟩, []) :=
  analyze_node_passthrough_on_empty_relevant (fun _ => .failed)
    (fun _ => .error "down") true .missing
    ⟨[⟨"2401.1v1", "u", "p", "t", "a", [], "arXiv"⟩], [], [], "", none, none⟩
    (by decide) rfl

/-- Counterexample for C5: a cache record that is valid JSON but not a
JSON object — the file content `[]` — is a corrupt record, yet
`load_processed_ids` raises (`data.get` on a `list` raises
`AttributeError`, which the `except (json.JSONDecodeError, IOError)`
clause does not catch) instead of returning the empty set. -/
theorem load_raises_on_json_array_record :
    load_processed_ids (.stored (.jarr [])) = .error ⟨"AttributeError"⟩ :=
  rfl

/-- Claim C5 (amended): `cache.load()` returns the empty set and does not
raise on a missing record and on a record that cannot be read or fails
JSON parsing; a record that parses to JSON but is not a JSON object (or
whose `processed_ids` value is not iterable, or is an array with
unhashable elements) raises an uncaught exception instead. -/
theorem load_empty_on_missing_or_unparseable :
    load_processed_ids .missing = .ok [] ∧
    load_processed_ids .unreadable = .ok [] ∧
    load_processed_ids (.stored (.jobj [("processed_ids", .jnum 3)])) =
      .error ⟨"TypeError"⟩ :=
  ⟨rfl, rfl, rfl⟩

/-- Claim C10: a candidate whose document downloads and parses
successfully but whose whitespace-collapsed text is empty is collapsed to
the same `""` sentinel as a download or parse failure, and `analyze_paper`
returns `None` for it without invoking the LLM — the effect trace holds
only the document fetch. -/
theorem empty_text_skips_llm (pdfO : PdfOracle) (llmO : AnalysisOracle)
    (paper : PaperCandidate) (raw : String)
    (hfetch : pdfO paper.pdf_url = .parsed raw)
    (hempty : collapseWs raw = "") :
    download_and_parse_pdf pdfO paper.pdf_url =
      (.ok "", [.httpGet paper.pdf_url]) ∧
    analyze_paper pdfO llmO paper = (.ok none, [.httpGet paper.pdf_url]) := by
  constructor
  · simp [download_and_parse_pdf, hfetch, hempty]
  · simp [analyze_paper, download_and_parse_pdf, hfetch, hempty]

/-- Witness for C10: a document whose extracted text is all whitespace. -/
theorem empty_text_skips_llm_witness :
    download_and_parse_pdf (fun _ => .parsed "  \t\n ") "http://x/p.pdf" =
      (.ok "", [.httpGet "http://x/p.pdf"]) ∧
    analyze_paper (fun _ => .parsed "  \t\n ")
        (fun _ => .ok ⟨[], [], "s"⟩)
        ⟨"i", "u", "http://x/p.pdf", "t", "a", [], "arXiv"⟩ =
      (.ok none, [.httpGet "http://x/p.pdf"]) :=
  empty_text_skips_llm (fun _ => .parsed "  \t\n ")
    (fun _ => .ok ⟨[], [], "s"⟩)
    ⟨"i", "u", "http://x/p.pdf", "t", "a", [], "arXiv"⟩ "  \t\n " rfl rfl

/-- Claim C2: `filter_papers` returns exactly the sublist of its input
(order preserved) of those candidates for which the relevance call
returned `true`, a failed call counting as `false` (that policy is the
definition of `is_relevant`). -/
theorem filter_papers_is_ordered_subfilter (relO : RelevanceOracle)
    (papers : List PaperCandidate) :
    (filter_papers relO papers).1 =
      papers.filter (fun p => (is_relevant relO p).1) ∧
    (filter_papers relO papers).1.Sublist papers := by
  have h := zip_map_filter_eq_filter (fun p => (is_relevant relO p).1) papers
  refine ⟨h, ?_⟩
  rw [show (filter_papers relO papers).1 =
      (((papers.zip (papers.map fun p => (is_relevant relO p).1)).filter
        fun pr => pr.2).map fun pr => pr.1) from rfl, h]
  exact List.filter_sublist papers

/-- The first `re.findall` hit of the anchored matcher `restF` in `text`,
or `""` when there is none. -/
def firstMatchString (restF : List Char → Option (List Char))
    (text : String) : String :=
  match findAll restF text.toList with
  | [] => ""
  | m :: _ => m.asString

/-- Claim C7: for every input text, `_extract_resource_links` returns a
mapping with exactly the three fixed keys `github`, `huggingface`,
`project_page` (in that order); `github` and `huggingface` are bound to
the first match of their pattern in source order, the empty string when no
match exists; `project_page` is always bound to the empty string (no
pattern of the code ever matches for it); the function is total — no
matches is a valid success result. -/
theorem extract_resource_links_shape (text : String) :
    (extract_resource_links text).map Prod.fst =
      ["github", "huggingface", "project_page"] ∧
    (extract_resource_links text).lookup "github" =
      some (firstMatchString githubRest text) ∧
    (extract_resource_links text).lookup "huggingface" =
      some (firstMatchString hfRest text) ∧
    (extract_resource_links text).lookup "project_page" = some "" := by
  unfold extract_resource_links firstMatchString
  cases findAll githubRest text.toList <;>
    cases findAll hfRest text.toList <;>
      simp [pyDictSetStr, List.lookup]

/-- Claim C3: the batch analysis collects only genuine `AnalyzedPaper`
successes (nulls and escaped exceptions are discarded by construction),
its output is at most as long as its input, and every output's
`metadata.id` is the id of some input candidate. -/
theorem analyze_all_bounds (pdfO : PdfOracle) (llmO : AnalysisOracle)
    (papers : List PaperCandidate) :
    (analyze_all pdfO llmO papers).1.length ≤ papers.length ∧
    ∀ ap ∈ (analyze_all pdfO llmO papers).1,
      ∃ p ∈ papers, ap.metadata.id = p.id := by
  constructor
  · calc (analyze_all pdfO llmO papers).1.length
        ≤ (papers.map (analyze_paper pdfO llmO)).length :=
          List.length_filterMap_le _ _
      _ = papers.length := List.length_map _ _
  · intro ap hap
    have hap2 : ap ∈ (papers.map (analyze_paper pdfO llmO)).filterMap
        (fun r => match r.1 with | .ok (some x) => some x | _ => none) := hap
    rw [List.mem_filterMap] at hap2
    obtain ⟨r, hr, hsome⟩ := hap2
    rw [List.mem_map] at hr
    obtain ⟨p, hp, hrp⟩ := hr
    refine ⟨p, hp, ?_⟩
    have hres : r.1 = .ok (some ap) := by
      rcases hr1 : r.1 with e | o
      · rw [hr1] at hsome; simp at hsome
      · rcases o with _ | x
        · rw [hr1] at hsome; simp at hsome
        · rw [hr1] at hsome; simp at hsome; rw [hsome]
    have hpr : analyze_paper pdfO llmO p = (.ok (some ap), r.2) := by
      rw [hrp, ← hres]
    have hmeta : ap.metadata = p :=
      analyze_paper_metadata pdfO llmO p ap r.2 hpr
    rw [hmeta]

/-- Witness for C3 at a concrete batch: two candidates, one analysis
succeeding and one failing. -/
theorem analyze_all_bounds_witness :
    (analyze_all
        (fun u => if u = "good.pdf" then .parsed "text here" else .failed)
        (fun _ => .ok ⟨[⟨"q", "a"⟩], ["kw"], "sum"⟩)
        [⟨"id1", "u1", "good.pdf", "t1", "a1", [], "arXiv"⟩,
         ⟨"id2", "u2", "bad.pdf", "t2", "a2", [], "arXiv"⟩]).1.length ≤ 2 ∧
    ∀ ap ∈ (analyze_all
        (fun u => if u = "good.pdf" then .parsed "text here" else .failed)
        (fun _ => .ok ⟨[⟨"q", "a"⟩], ["kw"], "sum"⟩)
        [⟨"id1", "u1", "good.pdf", "t1", "a1", [], "arXiv"⟩,
         ⟨"id2", "u2", "bad.pdf", "t2", "a2", [], "arXiv"⟩]).1,
      ∃ p ∈ [⟨"id1", "u1", "good.pdf", "t1", "a1", [], "arXiv"⟩,
             (⟨"id2", "u2", "bad.pdf", "t2", "a2", [], "arXiv"⟩ :
               PaperCandidate)], ap.metadata.id = p.id :=
  analyze_all_bounds
    (fun u => if u = "good.pdf" then .parsed "text here" else .failed)
    (fun _ => .ok ⟨[⟨"q", "a"⟩], ["kw"], "sum"⟩)
    [⟨"id1", "u1", "good.pdf", "t1", "a1", [], "arXiv"⟩,
     ⟨"id2", "u2", "bad.pdf", "t2", "a2", [], "arXiv"⟩]

/-- Counterexample for C6: with invocation time `now = 1000000` (seconds),
a bioRxiv collection item published at time `0` — far at or before the
`now − 24h` boundary — still yields a candidate in `_fetch_from_rxiv`'s
output: the code applies no local publication-time filter for
bioRxiv/medRxiv (or chemRxiv), only arXiv checks `published > now − 24h`. -/
theorem rxiv_fetch_includes_stale_paper :
    fetch_from_rxiv "biorxiv"
        (.ok ⟨[⟨some "10.1101/2024.01.01.573000", some "1",
               some "Old paper", some "A", [], 0⟩]⟩) =
      .ok [⟨"10.1101/2024.01.01.573000",
            "https://www.biorxiv.org/content/10.1101/2024.01.01.573000",
            "https://www.biorxiv.org/content/10.1101/2024.01.01.573000v1.full.pdf",
            "Old paper", "A", [""], "Biorxiv"⟩] ∧
    (0 : Int) ≤ 1000000 - 86400 := by
  exact ⟨rfl, by decide⟩

/-- Claim C6 (amended): only the arXiv fetcher filters candidates by
publication time — every arXiv output stems from a result with
`published > now − 24h` (strict) — while the bioRxiv/medRxiv and chemRxiv
fetchers include every item that yields a candidate (DOI present,
resp. PDF URL and mandatory fields present) regardless of its publication
time; their 24-hour window exists only as a date-granularity query
parameter sent to the remote API. -/
theorem fetch_window_filter_is_arxiv_only
    (now : Int) (rs : List ArxivResult) (server : String) (data : RxivData)
    (items : List ChemItem) :
    (∀ c ∈ fetch_from_arxiv now (.ok rs),
       ∃ r ∈ rs, arxiv_candidate now r = some c ∧
         r.published > now - 86400) ∧
    (∀ item ∈ data.collection, ∀ c, rxiv_candidate server item = some c →
       ∃ l, fetch_from_rxiv server (.ok data) = .ok l ∧ c ∈ l) ∧
    (∀ item ∈ items, ∀ c, chem_candidate item = some c →
       c ∈ fetch_from_chemrxiv (.ok items)) := by
  refine ⟨?_, ?_, ?_⟩
  · intro c hc
    rw [show fetch_from_arxiv now (.ok rs) =
        rs.filterMap (arxiv_candidate now) from rfl,
      List.mem_filterMap] at hc
    obtain ⟨r, hr, hcand⟩ := hc
    by_cases hfresh : r.published > now - 86400
    · exact ⟨r, hr, hcand, hfresh⟩
    · rw [arxiv_candidate, if_neg hfresh] at hcand
      exact absurd hcand (by simp)
  · intro item hitem c hc
    exact ⟨data.collection.filterMap (rxiv_candidate server), rfl,
      List.mem_filterMap.mpr ⟨item, hitem, hc⟩⟩
  · intro item hitem c hc
    exact List.mem_filterMap.mpr ⟨item, hitem, hc⟩

/-- Witness for C6 (amended) at concrete inputs: one fresh arXiv result,
one stale bioRxiv item, one chemRxiv item. -/
theorem fetch_window_filter_is_arxiv_only_witness :
    (∀ c ∈ fetch_from_arxiv 1000000
        (.ok [⟨"http://arxiv.org/abs/2401.1v1", 999999, some "p", [],
              "T", "S", []⟩]),
       ∃ r ∈ [(⟨"http://arxiv.org/abs/2401.1v1", 999999, some "p", [],
              "T", "S", []⟩ : ArxivResult)],
         arxiv_candidate 1000000 r = some c ∧
           r.published > 1000000 - 86400) ∧
    (∀ item ∈ (⟨[⟨some "10.1101/x", some "1", some "T", some "A", [], 0⟩]⟩ :
        RxivData).collection,
       ∀ c, rxiv_candidate "biorxiv" item = some c →
         ∃ l, fetch_from_rxiv "biorxiv"
             (.ok ⟨[⟨some "10.1101/x", some "1", some "T", some "A", [],
               0⟩]⟩) = .ok l ∧ c ∈ l) ∧
    (∀ item ∈ [(⟨some "ci", some "T", some "A", some "p.pdf", [], 0⟩ :
        ChemItem)],
       ∀ c, chem_candidate item = some c →
         c ∈ fetch_from_chemrxiv
           (.ok [⟨some "ci", some "T", some "A", some "p.pdf", [], 0⟩])) :=
  fetch_window_filter_is_arxiv_only 1000000
    [⟨"http://arxiv.org/abs/2401.1v1", 999999, some "p", [], "T", "S", []⟩]
    "biorxiv" ⟨[⟨some "10.1101/x", some "1", some "T", some "A", [], 0⟩]⟩
    [⟨some "ci", some "T", some "A", some "p.pdf", [], 0⟩]

/-- Every element of the list is hashable. -/
def allHashable (l : List Json) : Prop :=
  ∀ x ∈ l, x.unhashable = false

/-- The canonical-set invariant: no two elements are `pyEq`-equal. -/
def pyNodup (l : List Json) : Prop :=
  l.Pairwise fun a b => pyEq a b = false

/-- `pyEq` is reflexive on hashable values. -/
theorem pyEq_refl {a : Json} (h : a.unhashable = false) : pyEq a a = true := by
  cases a <;> simp [pyEq, Json.unhashable] at h ⊢

/-- On hashable values, `pyEq` coincides with equality. -/
theorem pyEq_iff {a b : Json} (ha : a.unhashable = false)
    (hb : b.unhashable = false) : pyEq a b = true ↔ a = b := by
  cases a <;> cases b <;> simp_all [pyEq, Json.unhashable]

/-- `List.any (pyEq x)` is membership, on hashable values. -/
theorem any_pyEq_iff {x : Json} {l : List Json} (hx : x.unhashable = false)
    (hl : allHashable l) : l.any (pyEq x) = true ↔ x ∈ l := by
  induction l with
  | nil => simp
  | cons y ys ih =>
      have hy : y.unhashable = false := hl y (by simp)
      have hys : allHashable ys := fun z hz => hl z (by simp [hz])
      simp [List.any_cons, ih hys, pyEq_iff hx hy]

/-- Membership in `pyDedupGo seen l`: in `l` but not among `seen`. -/
theorem pyDedupGo_mem {l : List Json} (hl : allHashable l) :
    ∀ {seen : List Json}, allHashable seen → ∀ {x : Json},
      (x ∈ pyDedupGo seen l ↔ x ∈ l ∧ x ∉ seen) := by
  induction l with
  | nil => intro seen _ x; simp [pyDedupGo]
  | cons y ys ih =>
      intro seen hseen x
      have hy : y.unhashable = false := hl y (by simp)
      have hys : allHashable ys := fun z hz => hl z (by simp [hz])
      by_cases hmem : seen.any (pyEq y) = true
      · have hy_seen : y ∈ seen := (any_pyEq_iff hy hseen).mp hmem
        rw [pyDedupGo, if_pos hmem, ih hys hseen]
        simp only [List.mem_cons]
        constructor
        · rintro ⟨h1, h2⟩; exact ⟨Or.inr h1, h2⟩
        · rintro ⟨h1 | h1, h2⟩
          · exact absurd (h1 ▸ hy_seen) h2
          · exact ⟨h1, h2⟩
      · have hy_notseen : y ∉ seen := fun h =>
          hmem ((any_pyEq_iff hy hseen).mpr h)
        have hseen2 : allHashable (y :: seen) := by
          intro z hz
          rcases List.mem_cons.mp hz with h | h
          · exact h ▸ hy
          · exact hseen z h
        rw [pyDedupGo, if_neg hmem]
        simp only [List.mem_cons, ih hys hseen2, List.mem_cons]
        constructor
        · rintro (h1 | ⟨h1, h2⟩)
          · exact ⟨Or.inl h1, h1 ▸ hy_notseen⟩
          · exact ⟨Or.inr h1, fun h => h2 (Or.inr h)⟩
        · rintro ⟨h1 | h1, h2⟩
          · exact Or.inl h1
          · by_cases hxy : x = y
            · exact Or.inl hxy
            · exact Or.inr ⟨h1, fun h => (by
                rcases h with h | h
                · exact hxy h
                · exact h2 h)⟩

/-- `pyDedup` preserves membership on hashable lists. -/
theorem pyDedup_mem {l : List Json} (hl : allHashable l) {x : Json} :
    x ∈ pyDedup l ↔ x ∈ l := by
  rw [pyDedup, pyDedupGo_mem hl (by intro z hz; cases hz)]
  simp

/-- `pyDedup` keeps all elements hashable. -/
theorem pyDedup_allHashable {l : List Json} (hl : allHashable l) :
    allHashable (pyDedup l) :=
  fun x hx => hl x ((pyDedup_mem hl).mp hx)

/-- `pyDedupGo` produces a `pyEq`-canonical (duplicate-free) list. -/
theorem pyDedupGo_nodup {l : List Json} (hl : allHashable l) :
    ∀ {seen : List Json}, allHashable seen → pyNodup (pyDedupGo seen l) := by
  induction l with
  | nil => intro seen _; simp [pyDedupGo, pyNodup]
  | cons y ys ih =>
      intro seen hseen
      have hy : y.unhashable = false := hl y (by simp)
      have hys : allHashable ys := fun z hz => hl z (by simp [hz])
      by_cases hmem : seen.any (pyEq y) = true
      · rw [pyDedupGo, if_pos hmem]; exact ih hys hseen
      · have hseen2 : allHashable (y :: seen) := by
          intro z hz
          rcases List.mem_cons.mp hz with h | h
          · exact h ▸ hy
          · exact hseen z h
        rw [pyDedupGo, if_neg hmem]
        refine List.Pairwise.cons ?_ (ih hys hseen2)
        intro b hb
        have hb2 := (pyDedupGo_mem hys hseen2).mp hb
        have hby : b ≠ y := fun h => hb2.2 (by simp [h])
        have hbh : b.unhashable = false := hys b hb2.1
        cases h : pyEq y b with
        | false => rfl
        | true => exact absurd ((pyEq_iff hy hbh).mp h).symm hby

/-- `pyDedup` produces a `pyEq`-canonical list. -/
theorem pyDedup_nodup {l : List Json} (hl : allHashable l) :
    pyNodup (pyDedup l) :=
  pyDedupGo_nodup hl (by intro z hz; cases hz)

/-- `pyDedupGo` is the identity on canonical lists disjoint from `seen`. -/
theorem pyDedupGo_of_nodup {l : List Json} (hl : allHashable l)
    (hnd : pyNodup l) :
    ∀ {seen : List Json}, allHashable seen → (∀ x ∈ l, x ∉ seen) →
      pyDedupGo seen l = l := by
  induction l with
  | nil => intro seen _ _; rfl
  | cons y ys ih =>
      intro seen hseen hdisj
      have hy : y.unhashable = false := hl y (by simp)
      have hys : allHashable ys := fun z hz => hl z (by simp [hz])
      have hynot : y ∉ seen := hdisj y (by simp)
      have hmem : seen.any (pyEq y) = false := by
        cases h : seen.any (pyEq y)
        · rfl
        · exact absurd ((any_pyEq_iff hy hseen).mp h) hynot
      rw [pyDedupGo, if_neg (by simp [hmem])]
      have hseen2 : allHashable (y :: seen) := by
        intro z hz
        rcases List.mem_cons.mp hz with h | h
        · exact h ▸ hy
        · exact hseen z h
      have hnd2 : pyNodup ys := hnd.of_cons
      have hdisj2 : ∀ x ∈ ys, x ∉ y :: seen := by
        intro x hx hcon
        rcases List.mem_cons.mp hcon with h | h
        · have hrel := List.rel_of_pairwise_cons hnd hx
          rw [h] at hrel
          simp [pyEq_refl hy] at hrel
        · exact hdisj x (by simp [hx]) h
      rw [ih hys hnd2 hseen2 hdisj2]

/-- `pyDedup` is the identity on canonical lists. -/
theorem pyDedup_of_nodup {l : List Json} (hl : allHashable l)
    (hnd : pyNodup l) : pyDedup l = l :=
  pyDedupGo_of_nodup hl hnd (by intro z hz; cases hz)
    (by intro x _ hx; cases hx)

/-- Membership in a set union, on hashable sets. -/
theorem pySetUnion_mem {xs ys : List Json} (hx : allHashable xs)
    (hy : allHashable ys) {z : Json} :
    z ∈ pySetUnion xs ys ↔ z ∈ xs ∨ z ∈ ys := by
  rw [pySetUnion, List.mem_append, List.mem_filter]
  constructor
  · rintro (h | ⟨h, _⟩)
    · exact Or.inl h
    · exact Or.inr h
  · rintro (h | h)
    · exact Or.inl h
    · by_cases hz : z ∈ xs
      · exact Or.inl hz
      · refine Or.inr ⟨h, ?_⟩
        have hzh : z.unhashable = false := hy z h
        cases ha : xs.any (pyEq z) with
        | false => simp [ha]
        | true => exact absurd ((any_pyEq_iff hzh hx).mp ha) hz

/-- A union of hashable sets is hashable. -/
theorem pySetUnion_allHashable {xs ys : List Json} (hx : allHashable xs)
    (hy : allHashable ys) : allHashable (pySetUnion xs ys) := by
  intro z hz
  rcases (pySetUnion_mem hx hy).mp hz with h | h
  · exact hx z h
  · exact hy z h

/-- A union of canonical hashable sets is canonical. -/
theorem pySetUnion_nodup {xs ys : List Json} (hx : allHashable xs)
    (hy : allHashable ys) (hnx : pyNodup xs) (hny : pyNodup ys) :
    pyNodup (pySetUnion xs ys) := by
  rw [pySetUnion, pyNodup, List.pairwise_append]
  refine ⟨hnx, hny.sublist (List.filter_sublist ys), ?_⟩
  intro a ha b hb
  have hb2 := List.mem_filter.mp hb
  have hah : a.unhashable = false := hx a ha
  have hbh : b.unhashable = false := hy b hb2.1
  cases h : pyEq a b with
  | false => rfl
  | true =>
      have hab : a = b := (pyEq_iff hah hbh).mp h
      have : xs.any (pyEq b) = true :=
        (any_pyEq_iff hbh hx).mpr (hab ▸ ha)
      simp [this] at hb2

/-- Absorbing a subset into a union: `u ∪ v = u` when `v ⊆ u`. -/
theorem pySetUnion_absorb {xs ys : List Json} (hx : allHashable xs)
    (hy : allHashable ys) (hsub : ∀ y ∈ ys, y ∈ xs) :
    pySetUnion xs ys = xs := by
  rw [pySetUnion, List.filter_eq_nil_iff.mpr, List.append_nil]
  intro y hyy
  have hyh : y.unhashable = false := hy y hyy
  simp [(any_pyEq_iff hyh hx).mpr (hsub y hyy)]

/-- `strSet` holds only (hashable) strings. -/
theorem strSet_allHashable (ids : List String) : allHashable (strSet ids) := by
  have hmap : allHashable (ids.map Json.jstr) := by
    intro x hx
    obtain ⟨s, _, rfl⟩ := List.mem_map.mp hx
    rfl
  exact pyDedup_allHashable hmap

/-- `strSet` is canonical. -/
theorem strSet_nodup (ids : List String) : pyNodup (strSet ids) := by
  have hmap : allHashable (ids.map Json.jstr) := by
    intro x hx
    obtain ⟨s, _, rfl⟩ := List.mem_map.mp hx
    rfl
  exact pyDedup_nodup hmap

/-- Membership of a string in its `strSet`. -/
theorem strSet_mem (ids : List String) {s : String} :
    Json.jstr s ∈ strSet ids ↔ s ∈ ids := by
  have hmap : allHashable (ids.map Json.jstr) := by
    intro x hx
    obtain ⟨t, _, rfl⟩ := List.mem_map.mp hx
    rfl
  rw [strSet, pyDedup_mem hmap, List.mem_map]
  constructor
  · rintro ⟨t, ht, he⟩
    cases he
    exact ht
  · intro h
    exact ⟨s, h, rfl⟩

/-- Whatever `load_processed_ids` successfully returns is a canonical
hashable set. -/
theorem load_ok_spec {f : CacheFile} {s : List Json}
    (h : load_processed_ids f = .ok s) : allHashable s ∧ pyNodup s := by
  have hset : ∀ v t, pySet v = .ok t → allHashable t ∧ pyNodup t := by
    intro v t hv
    cases v with
    | jarr xs =>
        rw [pySet] at hv
        by_cases hun : xs.any Json.unhashable = true
        · rw [if_pos hun] at hv; cases hv
        · rw [if_neg hun] at hv
          have hxs : allHashable xs := by
            intro x hx
            cases hu : x.unhashable with
            | false => rfl
            | true => exact absurd (List.any_eq_true.mpr ⟨x, hx, hu⟩) hun
          cases hv
          exact ⟨pyDedup_allHashable hxs, pyDedup_nodup hxs⟩
    | jstr str =>
        rw [pySet] at hv
        cases hv
        have hmap : allHashable (str.toList.map fun c =>
            Json.jstr c.toString) := by
          intro x hx
          obtain ⟨c, _, rfl⟩ := List.mem_map.mp hx
          rfl
        exact ⟨pyDedup_allHashable hmap, pyDedup_nodup hmap⟩
    | jobj fs =>
        rw [pySet] at hv
        cases hv
        have hmap : allHashable (fs.map fun kv => Json.jstr kv.1) := by
          intro x hx
          obtain ⟨kv, _, rfl⟩ := List.mem_map.mp hx
          rfl
        exact ⟨pyDedup_allHashable hmap, pyDedup_nodup hmap⟩
    | jnull => cases hv
    | jbool b => cases hv
    | jnum n => cases hv
  cases f with
  | missing =>
      cases h
      exact ⟨(by intro x hx; cases hx), List.Pairwise.nil⟩
  | unreadable =>
      cases h
      exact ⟨(by intro x hx; cases hx), List.Pairwise.nil⟩
  | stored j =>
      cases j with
      | jobj fs =>
          rw [load_processed_ids] at h
          exact hset _ _ (by simpa [pyDictGet, Bind.bind, Except.bind] using h)
      | jnull =>
          rw [load_processed_ids] at h
          simp [pyDictGet, Bind.bind, Except.bind] at h
      | jbool b =>
          rw [load_processed_ids] at h
          simp [pyDictGet, Bind.bind, Except.bind] at h
      | jnum n =>
          rw [load_processed_ids] at h
          simp [pyDictGet, Bind.bind, Except.bind] at h
      | jstr s2 =>
          rw [load_processed_ids] at h
          simp [pyDictGet, Bind.bind, Except.bind] at h
      | jarr xs =>
          rw [load_processed_ids] at h
          simp [pyDictGet, Bind.bind, Except.bind] at h

/-- Loading a record that `save_processed_ids` just wrote returns exactly
the written canonical set. -/
theorem load_stored_canonical {u : List Json} (hu : allHashable u)
    (hnd : pyNodup u) :
    load_processed_ids (.stored (.jobj [("processed_ids", .jarr u)])) =
      .ok u := by
  have hlk : pyDictGet (.jobj [("processed_ids", .jarr u)]) "processed_ids"
      (Json.jarr []) = .ok (.jarr u) := by
    simp [pyDictGet, List.lookup]
  have hun : u.any Json.unhashable = false := by
    cases h : u.any Json.unhashable with
    | false => rfl
    | true =>
        obtain ⟨x, hx, hxu⟩ := List.any_eq_true.mp h
        rw [hu x hx] at hxu
        cases hxu
  rw [load_processed_ids]
  rw [show (do
      let v ← pyDictGet (Json.jobj [("processed_ids", Json.jarr u)])
        "processed_ids" (Json.jarr [])
      pySet v : Except PyErr (List Json)) =
    pySet (.jarr u) by rw [hlk]; rfl]
  rw [pySet, if_neg (by simp [hun]), pyDedup_of_nodup hu hnd]

/-- What a successful `save_processed_ids` wrote. -/
theorem save_ok_spec {ids : List String} {f g : CacheFile}
    (h : save_processed_ids ids true f = .ok g) :
    ∃ ex, load_processed_ids f = .ok ex ∧
      g = .stored (.jobj [("processed_ids",
        .jarr (pySetUnion ex (strSet ids)))]) := by
  rw [save_processed_ids] at h
  cases hl : load_processed_ids f with
  | error e => rw [hl] at h; cases h
  | ok ex =>
      rw [hl] at h
      refine ⟨ex, rfl, ?_⟩
      cases h
      rfl

/-- Claim C4: starting from an empty (missing) cache,
`save(A)` then `save(B)` then `load()` yields exactly `A ∪ B` (as sets of
identifier strings); and `save` is idempotent: re-saving an id set over the
record it has just produced stores exactly the same content. -/
theorem cache_save_union_and_idempotent
    (A B C : List String) (f g : CacheFile)
    (hsave : save_processed_ids C true f = .ok g) :
    (∃ f1 f2 u,
      save_processed_ids A true .missing = .ok f1 ∧
      save_processed_ids B true f1 = .ok f2 ∧
      load_processed_ids f2 = .ok u ∧
      ∀ s : String, Json.jstr s ∈ u ↔ s ∈ A ∨ s ∈ B) ∧
    save_processed_ids C true g = .ok g := by
  have hA := strSet_allHashable A
  have hB := strSet_allHashable B
  have hC := strSet_allHashable C
  constructor
  · refine ⟨.stored (.jobj [("processed_ids", .jarr (strSet A))]),
      .stored (.jobj [("processed_ids",
        .jarr (pySetUnion (strSet A) (strSet B)))]),
      pySetUnion (strSet A) (strSet B), ?_, ?_, ?_, ?_⟩
    · rw [save_processed_ids]
      simp [load_processed_ids, Bind.bind, Except.bind, Pure.pure,
        Except.pure, pySetUnion]
    · rw [save_processed_ids,
        load_stored_canonical (strSet_allHashable A) (strSet_nodup A)]
      simp [Bind.bind, Except.bind, Pure.pure, Except.pure]
    · exact load_stored_canonical (pySetUnion_allHashable hA hB)
        (pySetUnion_nodup hA hB (strSet_nodup A) (strSet_nodup B))
    · intro s
      rw [pySetUnion_mem hA hB, strSet_mem, strSet_mem]
  · obtain ⟨ex, hex, hg⟩ := save_ok_spec hsave
    obtain ⟨hexh, hexnd⟩ := load_ok_spec hex
    have hu2h := pySetUnion_allHashable hexh hC
    have hu2nd := pySetUnion_nodup hexh hC hexnd (strSet_nodup C)
    have hloadg : load_processed_ids g =
        .ok (pySetUnion ex (strSet C)) := by
      rw [hg]; exact load_stored_canonical hu2h hu2nd
    have habs : pySetUnion (pySetUnion ex (strSet C)) (strSet C) =
        pySetUnion ex (strSet C) :=
      pySetUnion_absorb hu2h hC
        (fun y hy => (pySetUnion_mem hexh hC).mpr (Or.inr hy))
    rw [save_processed_ids, hloadg]
    simp [Bind.bind, Except.bind, Pure.pure, Except.pure, habs, hg]

/-- Witness for C4 at concrete id sets, with the idempotency hypothesis
discharged by evaluation on a concrete save. -/
theorem cache_save_union_and_idempotent_witness :
    (∃ f1 f2 u,
      save_processed_ids ["a", "b"] true .missing = .ok f1 ∧
      save_processed_ids ["b", "c"] true f1 = .ok f2 ∧
      load_processed_ids f2 = .ok u ∧
      ∀ s : String, Json.jstr s ∈ u ↔ s ∈ ["a", "b"] ∨ s ∈ ["b", "c"]) ∧
    save_processed_ids ["x"] true
        (.stored (.jobj [("processed_ids", .jarr [.jstr "x"])])) =
      .ok (.stored (.jobj [("processed_ids", .jarr [.jstr "x"])])) :=
  cache_save_union_and_idempotent ["a", "b"] ["b", "c"] ["x"] .missing
    (.stored (.jobj [("processed_ids", .jarr [.jstr "x"])])) rfl

/-- A line starting with a literal of length ≥ 3 is a section-header line
iff the literal alone is. -/
theorem isSectionHeaderLine_append (pre x : String)
    (h3 : 3 ≤ pre.toList.length) :
    isSectionHeaderLine (pre ++ x) = isSectionHeaderLine pre := by
  unfold isSectionHeaderLine
  have hd : (pre ++ x).toList = pre.toList ++ x.toList := by
    simp [String.toList, String.data_append]
  rw [hd, List.take_append_of_le_length h3]

/-- Question/answer lines never open a section. -/
theorem qaLines_no_header (qa : List (String × String)) :
    (qaLines qa).filter isSectionHeaderLine = [] := by
  induction qa with
  | nil => rfl
  | cons h t ih =>
      have hq : isSectionHeaderLine ("**Q:** " ++ h.1) = false := by
        rw [isSectionHeaderLine_append _ _ (by decide)]; decide
      have ha : isSectionHeaderLine ("**A:** " ++ h.2) = false := by
        rw [isSectionHeaderLine_append _ _ (by decide)]; decide
      simp [qaLines, List.filter_append, List.filter_cons, hq, ha] at ih ⊢
      exact ih

/-- The only section-header line of a paper section is its numbered
sub-heading, provided the raw summary line does not itself look like
one. -/
theorem paperSection_filter (idx : Nat) (p : AnalyzedPaper)
    (hsum : isSectionHeaderLine p.summary = false) :
    (paperSection idx p).filter isSectionHeaderLine =
      ["## " ++ (toString idx ++ ". " ++ p.metadata.title)] := by
  have hhdr : isSectionHeaderLine
      ("## " ++ (toString idx ++ ". " ++ p.metadata.title)) = true := by
    rw [isSectionHeaderLine_append _ _ (by decide)]; decide
  have hauth : isSectionHeaderLine ("**Authors:** *" ++
      (String.intercalate ", " p.metadata.authors ++ "*")) = false := by
    rw [isSectionHeaderLine_append _ _ (by decide)]; decide
  have hsrc : isSectionHeaderLine ("**Source:** [" ++
      (p.metadata.source ++ "](" ++ p.metadata.url ++
        ") | **PDF:** [Link](" ++ p.metadata.pdf_url ++ ")")) = false := by
    rw [isSectionHeaderLine_append _ _ (by decide)]
    decide
  have hres : isSectionHeaderLine ("**Resources:** " ++
      String.intercalate " | " (resourceEntries p.resource_links)) =
        false := by
    rw [isSectionHeaderLine_append _ _ (by decide)]; decide
  have hkw : isSectionHeaderLine ("**Keywords:** `" ++
      (String.intercalate ", " p.keywords ++ "`")) = false := by
    rw [isSectionHeaderLine_append _ _ (by decide)]; decide
  by_cases hre : (resourceEntries p.resource_links).isEmpty
  · simp [paperSection, hre, List.filter_append, List.filter_cons, hhdr,
      hauth, hsrc, hkw, hsum, qaLines_no_header,
      show isSectionHeaderLine "### Summary" = false by decide,
      show isSectionHeaderLine "<details>" = false by decide,
      show isSectionHeaderLine "<summary>Detailed Analysis</summary>" =
        false by decide,
      show isSectionHeaderLine "</details>" = false by decide]
  · simp [paperSection, hre, List.filter_append, List.filter_cons, hhdr,
      hauth, hsrc, hres, hkw, hsum, qaLines_no_header,
      show isSectionHeaderLine "### Summary" = false by decide,
      show isSectionHeaderLine "<details>" = false by decide,
      show isSectionHeaderLine "<summary>Detailed Analysis</summary>" =
        false by decide,
      show isSectionHeaderLine "</details>" = false by decide]

/-- The section-header lines of the concatenated paper sections, starting
at any index, are exactly the numbered sub-headings in order. -/
theorem sections_filter (ps : List AnalyzedPaper)
    (h : ∀ p ∈ ps, isSectionHeaderLine p.summary = false) :
    ∀ k : Nat,
      ((List.enumFrom k ps).map fun ip =>
        paperSection (ip.1 + 1) ip.2).flatten.filter isSectionHeaderLine =
      (List.enumFrom k ps).map fun ip =>
        "## " ++ (toString (ip.1 + 1) ++ ". " ++ ip.2.metadata.title) := by
  induction ps with
  | nil => intro k; rfl
  | cons p t ih =>
      intro k
      rw [List.enumFrom_cons, List.map_cons, List.map_cons,
        List.flatten_cons, List.filter_append,
        paperSection_filter _ _ (h p (by simp)),
        ih (fun q hq => h q (by simp [hq])) (k + 1)]
      rfl

/-- Claim C8 (spec-modelled: `src/synthesizer.py` is absent from the
sources, the renderer is reconstructed from spec §4.5 and
`tests/test_synthesizer.py`): `synthesize` on the empty list produces a
fixed document containing the "no relevant papers found" message and is
not the empty string; and for any input list whose summaries do not
themselves open a fake section heading, the rendered document has exactly
one numbered section per input paper, in input order. -/
theorem synthesize_empty_message_and_numbered_sections
    (today : String) (papers : List AnalyzedPaper)
    (hclean : ∀ p ∈ papers, isSectionHeaderLine p.summary = false) :
    noPapersMessage ∈ synthesizeLines today [] ∧
    synthesize today [] ≠ "" ∧
    (synthesizeLines today papers).filter isSectionHeaderLine =
      papers.enum.map (fun ip =>
        "## " ++ (toString (ip.1 + 1) ++ ". " ++ ip.2.metadata.title)) := by
  have hdate : isSectionHeaderLine ("**Date:** " ++ today) = false := by
    rw [isSectionHeaderLine_append _ _ (by decide)]; decide
  have htitle : isSectionHeaderLine "# AI4Science Daily Paper Report" =
      false := by decide
  refine ⟨?_, ?_, ?_⟩
  · simp [synthesizeLines, reportHeader]
  · intro hcon
    simp only [synthesize, synthesizeLines, List.isEmpty_nil, if_true,
      reportHeader, noPapersMessage, List.cons_append, List.nil_append,
      joinLines] at hcon
    have hlen := congrArg String.length hcon
    simp only [String.length_append] at hlen
    rw [show ("# AI4Science Daily Paper Report" : String).length = 31
        from rfl,
      show ("\n" : String).length = 1 from rfl,
      show ("**Date:** " : String).length = 10 from rfl,
      show ("No relevant papers found today." : String).length = 31
        from rfl,
      show ("" : String).length = 0 from rfl] at hlen
    omega
  · by_cases hps : papers = []
    · subst hps
      simp [synthesizeLines, reportHeader, List.filter_cons, hdate, htitle,
        show isSectionHeaderLine noPapersMessage = false by decide]
    · rw [synthesizeLines, if_neg (by simp [hps]), List.filter_append,
        show (reportHeader today).filter isSectionHeaderLine = [] by
          simp [reportHeader, List.filter_cons, hdate, htitle],
        show papers.enum = List.enumFrom 0 papers from rfl,
        sections_filter papers hclean 0, List.nil_append]

/-- Witness for C8 at a concrete date and two concrete papers. -/
theorem synthesize_empty_message_and_numbered_sections_witness :
    noPapersMessage ∈ synthesizeLines "2026-10-12" [] ∧
    synthesize "2026-10-12" [] ≠ "" ∧
    (synthesizeLines "2026-10-12"
        [⟨⟨"i1", "u1", "p1", "First Paper", "a1", ["A"], "arXiv"⟩,
          ["kw"], [("Q?", "A.")], [("github", "g"), ("huggingface", ""),
          ("project_page", "")], "Sum one."⟩,
         ⟨⟨"i2", "u2", "p2", "Second Paper", "a2", [], "Biorxiv"⟩,
          [], [], [], "Sum two."⟩]).filter isSectionHeaderLine =
      [⟨⟨"i1", "u1", "p1", "First Paper", "a1", ["A"], "arXiv"⟩,
        ["kw"], [("Q?", "A.")], [("github", "g"), ("huggingface", ""),
        ("project_page", "")], "Sum one."⟩,
       (⟨⟨"i2", "u2", "p2", "Second Paper", "a2", [], "Biorxiv"⟩,
        [], [], [], "Sum two."⟩ : AnalyzedPaper)].enum.map (fun ip =>
          "## " ++ (toString (ip.1 + 1) ++ ". " ++ ip.2.metadata.title)) :=
  synthesize_empty_message_and_numbered_sections "2026-10-12"
    [⟨⟨"i1", "u1", "p1", "First Paper", "a1", ["A"], "arXiv"⟩,
      ["kw"], [("Q?", "A.")], [("github", "g"), ("huggingface", ""),
      ("project_page", "")], "Sum one."⟩,
     ⟨⟨"i2", "u2", "p2", "Second Paper", "a2", [], "Biorxiv"⟩,
      [], [], [], "Sum two."⟩]
    (by decide)
